import Mathlib

/-!
Verification of the gridkyc grid-trading bot.

Shallow embedding of the grid trading control loop of the `gridkyc`
repository (`src/GridBot.js`, `src/discordbot.js`,
`src/helpers/discordhelper.js`).  JavaScript numbers are modelled as
exact rationals (`ℚ`), the in-memory order ledger as a `List`, and the
fallible exchange calls as `Except String`-valued oracles; the
`try/catch` wrapper of each polling tick is modelled by returning the
state reached at the point of failure together with the reported error.

The file is laid out as definitions (the embedding) first, then the
supporting lemmas and the claim theorems.
-/

namespace GridKyc

/-! Filter Normalizer (src/GridBot.js lines 74-90).
`adjustQuantity` floors the raw quantity to a multiple of `stepSize`
and clamps the result up to `minQty`; `adjustPrice` does the same with
`tickSize` and `minPrice`; `isValidNotional` compares the order value
with the exchange minimum. -/

def adjustQuantity (quantity stepSize minQty : ℚ) : ℚ :=
  let adjustedQuantity : ℚ := (⌊quantity / stepSize⌋ : ℤ) * stepSize
  if adjustedQuantity < minQty then minQty else adjustedQuantity

def adjustPrice (price tickSize minPrice : ℚ) : ℚ :=
  let adjustedPrice : ℚ := (⌊price / tickSize⌋ : ℤ) * tickSize
  if adjustedPrice < minPrice then minPrice else adjustedPrice

def isValidNotional (quantity price minNotional : ℚ) : Prop :=
  quantity * price ≥ minNotional

instance (quantity price minNotional : ℚ) :
    Decidable (isValidNotional quantity price minNotional) := by
  unfold isValidNotional; infer_instance

/-! Data model.
`TrackedOrder` mirrors the `{ orderId, quantity, price }` objects kept
in `activeOrders`; `Placement` records one `placeSpotOrder` call;
`SymbolFilters` is the result of `getTradingPairInfo`; `SessState` is
the mutable per-session state (`basePrice`, `activeOrders`);
`BotConfig` bundles the `startGridBot` parameters; `ExchangeEnv` gives
the outcome of each fallible exchange call during one tick. -/

structure TrackedOrder where
  orderId : Nat
  quantity : ℚ
  price : ℚ
deriving DecidableEq, Repr

structure Placement where
  side : String
  quantity : ℚ
  price : ℚ
deriving DecidableEq, Repr

structure SymbolFilters where
  minQty : ℚ
  stepSize : ℚ
  tickSize : ℚ
  minPrice : ℚ
  minNotional : ℚ
deriving DecidableEq, Repr

structure SessState where
  basePrice : ℚ
  activeOrders : List TrackedOrder
deriving DecidableEq, Repr

structure BotConfig where
  percentageDrop : ℚ
  percentageRise : ℚ
  investment : ℚ
  noBuys : Bool
  filters : SymbolFilters

structure ExchangeEnv where
  getPrice : Except String ℚ
  check : Nat → Except String String
  place : Placement → Except String Nat

/-- The SELL placement emitted for a filled buy order
(src/GridBot.js line 193: `adjustPrice(order.price * 1.03012, tickSize,
minPrice)` for `order.quantity`). -/
def sellPlacement (filters : SymbolFilters) (order : TrackedOrder) : Placement :=
  ⟨"SELL", order.quantity,
    adjustPrice (order.price * 1.03012) filters.tickSize filters.minPrice⟩

/-- The fill-sweep loop of src/GridBot.js lines 187-197:
`for (let i = activeOrders.length - 1; i >= 0; i--)` queries each
tracked order's status, and on FILLED splices index `i` out of the
array and places the corresponding SELL order.  The fuel argument is
`i + 1` (so fuel `0` means the loop has ended); a failing exchange call
aborts the loop, returning the orders and sells accumulated so far
together with the error, as the thrown exception would. -/
def sweepGoE (check : Nat → Except String String)
    (place : Placement → Except String Nat) (filters : SymbolFilters) :
    List TrackedOrder → List Placement → Nat →
      List TrackedOrder × List Placement × Option String
  | orders, sells, 0 => (orders, sells, none)
  | orders, sells, i + 1 =>
    if h : i < orders.length then
      match check (orders.get ⟨i, h⟩).orderId with
      | .error e => (orders, sells, some e)
      | .ok status =>
        if status = "FILLED" then
          let order := orders.get ⟨i, h⟩
          let orders' := orders.eraseIdx i
          match place (sellPlacement filters order) with
          | .error e => (orders', sells, some e)
          | .ok _ =>
            sweepGoE check place filters orders'
              (sells ++ [sellPlacement filters order]) i
        else
          sweepGoE check place filters orders sells i
    else
      sweepGoE check place filters orders sells i

/-- One whole fill sweep over the current ledger. -/
def fillSweep (check : Nat → Except String String)
    (place : Placement → Except String Nat) (filters : SymbolFilters)
    (orders : List TrackedOrder) :
    List TrackedOrder × List Placement × Option String :=
  sweepGoE check place filters orders [] orders.length

/-- The entry decision and rise rebase of src/GridBot.js lines 199-214,
acting on the ledger left by the fill sweep: on a qualifying drop the
buy order is quantized, checked against the minimum notional, placed,
pushed onto the ledger, and `basePrice` is reset to the current price;
on a notional failure nothing changes; otherwise a qualifying rise
resets `basePrice` only. -/
def entryStep (env : ExchangeEnv) (cfg : BotConfig) (currentPrice : ℚ)
    (basePrice : ℚ) (orders' : List TrackedOrder) (sells : List Placement) :
    SessState × List Placement × Option String :=
  let priceDrop := (basePrice - currentPrice) / basePrice * 100
  let priceRise := (currentPrice - basePrice) / basePrice * 100
  if cfg.noBuys = false ∧ priceDrop ≥ cfg.percentageDrop then
    let quantity :=
      adjustQuantity (cfg.investment / currentPrice) cfg.filters.stepSize
        cfg.filters.minQty
    let price :=
      adjustPrice (currentPrice * 0.99) cfg.filters.tickSize cfg.filters.minPrice
    if isValidNotional quantity price cfg.filters.minNotional then
      match env.place ⟨"BUY", quantity, price⟩ with
      | .error e => (⟨basePrice, orders'⟩, sells, some e)
      | .ok oid =>
        (⟨currentPrice, orders' ++ [⟨oid, quantity, price⟩]⟩,
          sells ++ [⟨"BUY", quantity, price⟩], none)
    else (⟨basePrice, orders'⟩, sells, none)
  else if priceRise ≥ cfg.percentageRise then
    (⟨currentPrice, orders'⟩, sells, none)
  else (⟨basePrice, orders'⟩, sells, none)

/-- One polling tick of src/GridBot.js lines 181-218: fetch the price,
run the fill sweep, then the entry decision.  The surrounding
`try ... catch` is modelled by returning the session state reached
at the failure point together with the reported error message; the
returned state is the state the next scheduled tick starts from. -/
def tick (env : ExchangeEnv) (cfg : BotConfig) (st : SessState) :
    SessState × List Placement × Option String :=
  match env.getPrice with
  | .error e => (st, [], some e)
  | .ok currentPrice =>
    match fillSweep env.check env.place cfg.filters st.activeOrders with
    | (orders', sells, some e) => (⟨st.basePrice, orders'⟩, sells, some e)
    | (orders', sells, none) =>
      entryStep env cfg currentPrice st.basePrice orders' sells

/-- A structurally recursive description of the back-to-front splice
loop, used to reason about `sweepGoE`: its argument is the *reversed*
list of orders still to process (head = highest remaining index), and
it returns the resulting ledger segment, the sells emitted in
processing order, and the error that aborted the loop, if any. -/
def sweepPreAux (check : Nat → Except String String)
    (place : Placement → Except String Nat) (filters : SymbolFilters) :
    List TrackedOrder → List TrackedOrder × List Placement × Option String
  | [] => ([], [], none)
  | a :: xs =>
    match check a.orderId with
    | .error e => (xs.reverse ++ [a], [], some e)
    | .ok status =>
      if status = "FILLED" then
        match place (sellPlacement filters a) with
        | .error e => (xs.reverse, [], some e)
        | .ok _ =>
          let r := sweepPreAux check place filters xs
          (r.1, sellPlacement filters a :: r.2.1, r.2.2)
      else
        let r := sweepPreAux check place filters xs
        (r.1 ++ [a], r.2.1, r.2.2)

/-- Whether the sweep keeps a tracked order: it is removed exactly when
its status query answers FILLED. -/
def keepOrder (check : Nat → Except String String) (o : TrackedOrder) : Bool :=
  match check o.orderId with
  | .ok status => !(status == "FILLED")
  | .error _ => true

/-! The Discord variant (src/discordbot.js).
src/discordbot.js defines no `checkOrderStatus` and imports only
`initializeDiscordBot` and `sendMessageToChannel` from the helper, yet
its fill-sweep loop body (line 135) begins with
`await checkOrderStatus(apiKey, apiSecret, symbol, order.orderId)`.
In JavaScript, referencing the undefined identifier throws a
`ReferenceError` as soon as the loop body first runs, so the call site
is embedded as an immediately failing call. -/

def discordRefError : String := "checkOrderStatus is not defined"

/-- The fill-sweep loop of src/discordbot.js lines 133-147, with the
same back-to-front fuel convention as `sweepGoE`: every iteration with
a live index fails at once with the `ReferenceError`, before any
status is read, any splice, or any SELL placement. -/
def discordSweepGo (orders : List TrackedOrder) (sells : List Placement) :
    Nat → List TrackedOrder × List Placement × Option String
  | 0 => (orders, sells, none)
  | i + 1 =>
    if i < orders.length then (orders, sells, some discordRefError)
    else discordSweepGo orders sells i

/-- One polling tick of the Discord variant's `startGridBot`
(src/discordbot.js lines 124-170).  The constants 0.60, 1.2 and 2 are
the local `percentageDrop`, `percentageRise` and `investment`; the buy
path checks `quantity * price >= minNotional` inline. -/
def discordTick (env : ExchangeEnv) (filters : SymbolFilters)
    (st : SessState) : SessState × List Placement × Option String :=
  match env.getPrice with
  | .error e => (st, [], some e)
  | .ok currentPrice =>
    let priceDrop := (st.basePrice - currentPrice) / st.basePrice * 100
    let priceRise := (currentPrice - st.basePrice) / st.basePrice * 100
    match discordSweepGo st.activeOrders [] st.activeOrders.length with
    | (orders', sells, some e) => (⟨st.basePrice, orders'⟩, sells, some e)
    | (orders', sells, none) =>
      if priceDrop ≥ 0.60 then
        let quantity :=
          adjustQuantity (2 / currentPrice) filters.stepSize filters.minQty
        let price :=
          adjustPrice (currentPrice * 0.99) filters.tickSize filters.minPrice
        if quantity * price ≥ filters.minNotional then
          match env.place ⟨"BUY", quantity, price⟩ with
          | .error e => (⟨st.basePrice, orders'⟩, sells, some e)
          | .ok oid =>
            (⟨currentPrice, orders' ++ [⟨oid, quantity, price⟩]⟩,
              sells ++ [⟨"BUY", quantity, price⟩], none)
        else (⟨st.basePrice, orders'⟩, sells, none)
      else if priceRise ≥ 1.2 then (⟨currentPrice, orders'⟩, sells, none)
      else (⟨st.basePrice, orders'⟩, sells, none)

/-! The session front end (src/helpers/discordhelper.js).
The helper keeps one in-memory map
`userTradingData : userId -> (apiKey, apiSecret)` and handles each
incoming message in the `messageCreate` listener of
`initializeDiscordBot`: `!setapikey <k> <s>` stores credentials
(rejected when either token is missing), and `!setpair <symbol>`
starts a grid bot for the author if credentials are stored — with no
registry of running sessions and no check of any kind for an already
running (user, symbol) session.  A message is modelled as its author
id plus the space-separated tokens of its content (the listener splits
the content and dispatches on the leading command word). -/

structure Creds where
  apiKey : String
  apiSecret : String
deriving DecidableEq, Repr

/-- Process a single message: returns the updated credential store and
the grid-bot start actions (author, symbol) it triggered. -/
def handleMessage (store : Nat → Option Creds) (author : Nat)
    (tokens : List String) : (Nat → Option Creds) × List (Nat × String) :=
  let store1 :=
    if tokens.headD "" = "!setapikey" then
      let apiKey := tokens.getD 1 ""
      let apiSecret := tokens.getD 2 ""
      if apiKey = "" ∨ apiSecret = "" then store
      else fun u => if u = author then some ⟨apiKey, apiSecret⟩ else store u
    else store
  let starts :=
    if tokens.headD "" = "!setpair" then
      match store1 author with
      | none => []
      | some _ => [(author, tokens.getD 1 "")]
    else []
  (store1, starts)

/-- Process a sequence of messages, accumulating every grid-bot start
in order. -/
def runMessages (store : Nat → Option Creds) :
    List (Nat × List String) → (Nat → Option Creds) × List (Nat × String)
  | [] => (store, [])
  | (author, tokens) :: rest =>
    let r1 := handleMessage store author tokens
    let r2 := runMessages r1.1 rest
    (r2.1, r1.2 ++ r2.2)

/-- Sell-price computation of the second GridBot variant
(src/GridBot.js line 418): `const sellPrice = order.price * 3.012;`,
used directly by `placeSpotOrder` with no quantization, although the
comment above it (line 417) says "3.012 percent above filled price". -/
def gridBot2SellPrice (orderPrice : ℚ) : ℚ := orderPrice * 3.012

/-! Concrete data used by the witnesses. -/

def filtersW : SymbolFilters := ⟨1, 1, 1/100, 1/100, 10⟩

def cfgW : BotConfig := ⟨3/5, 6/5, 200, false, filtersW⟩

def stW : SessState := ⟨100, []⟩

def envBuyW : ExchangeEnv := ⟨.ok 99, fun _ => .ok "NEW", fun _ => .ok 7⟩

def envRiseW : ExchangeEnv := ⟨.ok 102, fun _ => .ok "NEW", fun _ => .ok 7⟩

def envErrW : ExchangeEnv :=
  ⟨.error "network down", fun _ => .error "network down",
    fun _ => .error "network down"⟩

def checkW : Nat → Except String String := fun oid =>
  if oid = 1 ∨ oid = 3 then .ok "FILLED" else .ok "NEW"

def placeW : Placement → Except String Nat := fun _ => .ok 99

def ordersW : List TrackedOrder := [⟨1, 5, 10⟩, ⟨2, 6, 11⟩, ⟨3, 7, 12⟩]

def stNW : SessState := ⟨100, [⟨1, 1, 1⟩]⟩

/-! Supporting lemmas. -/

/-- The floored multiple of the step never exceeds the raw input
(for a positive step). -/
lemma floor_step_le (raw step : ℚ) (hstep : 0 < step) :
    ((⌊raw / step⌋ : ℤ) : ℚ) * step ≤ raw := by
  have h1 : ((⌊raw / step⌋ : ℤ) : ℚ) ≤ raw / step := Int.floor_le _
  have h2 : ((⌊raw / step⌋ : ℤ) : ℚ) * step ≤ raw / step * step :=
    mul_le_mul_of_nonneg_right h1 (le_of_lt hstep)
  rwa [div_mul_cancel₀ raw (ne_of_gt hstep)] at h2

/-- The quantity quantizer always returns at least `minQty`. -/
lemma adjustQuantity_ge_min (quantity stepSize minQty : ℚ) :
    minQty ≤ adjustQuantity quantity stepSize minQty := by
  unfold adjustQuantity
  by_cases h : ((⌊quantity / stepSize⌋ : ℤ) : ℚ) * stepSize < minQty
  · simp [h]
  · simp only [h, if_false]
    exact le_of_not_lt h

/-- The price quantizer always returns at least `minPrice`. -/
lemma adjustPrice_ge_min (price tickSize minPrice : ℚ) :
    minPrice ≤ adjustPrice price tickSize minPrice := by
  unfold adjustPrice
  by_cases h : ((⌊price / tickSize⌋ : ℤ) : ℚ) * tickSize < minPrice
  · simp [h]
  · simp only [h, if_false]
    exact le_of_not_lt h

lemma get_append_middle {α : Type} (l1 : List α) (a : α) (l2 : List α)
    (h : l1.length < (l1 ++ a :: l2).length) :
    (l1 ++ a :: l2).get ⟨l1.length, h⟩ = a := by
  induction l1 with
  | nil => rfl
  | cons b bs ih => simpa using ih (by simp)

lemma eraseIdx_append_middle {α : Type} (l1 : List α) (a : α) (l2 : List α) :
    (l1 ++ a :: l2).eraseIdx l1.length = l1 ++ l2 := by
  induction l1 with
  | nil => rfl
  | cons b bs ih => simp [ih]

/-- The index loop `sweepGoE`, started with fuel the length of the yet
unprocessed prefix, behaves like `sweepPreAux` on that prefix (given
reversed) and never touches the part of the list below the processed
indices. -/
lemma sweepGoE_reverse_split (check : Nat → Except String String)
    (place : Placement → Except String Nat) (filters : SymbolFilters) :
    ∀ (l suf : List TrackedOrder) (sells : List Placement),
      sweepGoE check place filters (l.reverse ++ suf) sells l.reverse.length =
        ((sweepPreAux check place filters l).1 ++ suf,
         sells ++ (sweepPreAux check place filters l).2.1,
         (sweepPreAux check place filters l).2.2) := by
  intro l
  induction l with
  | nil => intro suf sells; simp [sweepGoE, sweepPreAux]
  | cons a xs ih =>
    intro suf sells
    rw [List.reverse_cons]
    have hlen : (xs.reverse ++ [a]).length = xs.reverse.length + 1 := by
      simp
    rw [hlen, List.append_assoc, List.singleton_append]
    have hlt : xs.reverse.length < (xs.reverse ++ a :: suf).length := by
      simp
    rw [sweepGoE, dif_pos hlt, get_append_middle xs.reverse a suf hlt]
    cases hc : check a.orderId with
    | error e =>
      simp only [sweepPreAux, hc]
      simp [List.append_assoc]
    | ok status =>
      by_cases hs : status = "FILLED"
      · subst hs
        simp only [sweepPreAux, hc, if_pos rfl]
        rw [eraseIdx_append_middle xs.reverse a suf]
        cases hp : place (sellPlacement filters a) with
        | error e => simp
        | ok oid =>
          rw [ih suf (sells ++ [sellPlacement filters a])]
          simp
      · simp only [sweepPreAux, hc, if_neg hs]
        rw [ih (a :: suf) sells]
        simp

/-- An errorless pass of the reversed-prefix sweep keeps exactly the
orders whose status query did not answer FILLED, in order. -/
lemma sweepPreAux_none_filter (check : Nat → Except String String)
    (place : Placement → Except String Nat) (filters : SymbolFilters) :
    ∀ l, (sweepPreAux check place filters l).2.2 = none →
      (sweepPreAux check place filters l).1 =
        l.reverse.filter (keepOrder check) := by
  intro l
  induction l with
  | nil => intro _; simp [sweepPreAux]
  | cons a xs ih =>
    intro hnone
    cases hc : check a.orderId with
    | error e => simp [sweepPreAux, hc] at hnone
    | ok status =>
      by_cases hs : status = "FILLED"
      · subst hs
        cases hp : place (sellPlacement filters a) with
        | error e => simp [sweepPreAux, hc, hp] at hnone
        | ok oid =>
          simp only [sweepPreAux, hc, hp, if_pos rfl] at hnone ⊢
          rw [ih hnone]
          have hk : keepOrder check a = false := by
            simp [keepOrder, hc]
          simp [List.filter_append, hk]
      · simp only [sweepPreAux, hc, if_neg hs] at hnone ⊢
        rw [ih hnone]
        have hk : keepOrder check a = true := by
          simp [keepOrder, hc, hs]
        simp [List.filter_append, hk]

/-- `fillSweep` is `sweepPreAux` on the reversed ledger. -/
lemma fillSweep_eq_sweepPreAux (check : Nat → Except String String)
    (place : Placement → Except String Nat) (filters : SymbolFilters)
    (orders : List TrackedOrder) :
    fillSweep check place filters orders =
      ((sweepPreAux check place filters orders.reverse).1,
       (sweepPreAux check place filters orders.reverse).2.1,
       (sweepPreAux check place filters orders.reverse).2.2) := by
  have h := sweepGoE_reverse_split check place filters orders.reverse [] []
  simp only [List.reverse_reverse, List.append_nil, List.nil_append] at h
  simpa [fillSweep] using h

/-- An order whose status query fails is never removed by the sweep. -/
lemma sweepPreAux_mem_of_check_error (check : Nat → Except String String)
    (place : Placement → Except String Nat) (filters : SymbolFilters)
    (a : TrackedOrder) (e : String) (ha : check a.orderId = .error e) :
    ∀ l, a ∈ l → a ∈ (sweepPreAux check place filters l).1 := by
  intro l
  induction l with
  | nil => intro h; exact absurd h (List.not_mem_nil a)
  | cons b xs ih =>
    intro hmem
    rcases List.mem_cons.mp hmem with hab | haxs
    · subst hab
      simp [sweepPreAux, ha]
    · cases hc : check b.orderId with
      | error e2 =>
        simp only [sweepPreAux, hc]
        exact List.mem_append_left _ (List.mem_reverse.mpr haxs)
      | ok status =>
        by_cases hs : status = "FILLED"
        · subst hs
          cases hp : place (sellPlacement filters b) with
          | error e2 =>
            simp only [sweepPreAux, hc, hp, if_pos rfl]
            exact List.mem_reverse.mpr haxs
          | ok oid =>
            simp only [sweepPreAux, hc, hp, if_pos rfl]
            exact ih haxs
        · simp only [sweepPreAux, hc, if_neg hs]
          exact List.mem_append_left _ (ih haxs)

/-- The entry decision never removes anything from the ledger it is
given. -/
lemma entryStep_mem (env : ExchangeEnv) (cfg : BotConfig) (p bp : ℚ)
    (orders' : List TrackedOrder) (sells : List Placement) (a : TrackedOrder)
    (ha : a ∈ orders') :
    a ∈ (entryStep env cfg p bp orders' sells).1.activeOrders := by
  simp only [entryStep]
  split
  · split
    · cases env.place
        ⟨"BUY",
          adjustQuantity (cfg.investment / p) cfg.filters.stepSize
            cfg.filters.minQty,
          adjustPrice (p * 0.99) cfg.filters.tickSize cfg.filters.minPrice⟩ with
      | error e => simpa using ha
      | ok oid => simp [ha]
    · simpa using ha
  · split
    · simpa using ha
    · simpa using ha

/-- On a non-empty ledger the Discord sweep aborts on its very first
iteration, changing nothing. -/
lemma discordSweepGo_ne_nil (orders : List TrackedOrder)
    (sells : List Placement) (h : orders ≠ []) :
    discordSweepGo orders sells orders.length =
      (orders, sells, some discordRefError) := by
  cases orders with
  | nil => exact absurd rfl h
  | cons a rest =>
    show discordSweepGo (a :: rest) sells (rest.length + 1) = _
    rw [discordSweepGo]
    rw [if_pos (by simp)]

/-! Claim C1. -/

/-- Claim C1: on a tick whose price fetch succeeds, whose fill sweep
observes no fill (the ledger is left as it was) and where buying is
enabled with the drop percentage at least `percentageDrop`: if the
quantized order meets the minimum notional and the exchange accepts it,
exactly one BUY placement is emitted, the ledger grows by exactly the
new tracked order, and `basePrice` becomes the tick price `p` used for
entry; if the notional check fails, nothing is placed and the session
state is unchanged. -/
theorem grid_entry_buy (env : ExchangeEnv) (cfg : BotConfig) (st : SessState)
    (p : ℚ) (oid : Nat)
    (hp : env.getPrice = .ok p)
    (hsweep : fillSweep env.check env.place cfg.filters st.activeOrders =
      (st.activeOrders, [], none))
    (hnb : cfg.noBuys = false)
    (hdrop : (st.basePrice - p) / st.basePrice * 100 ≥ cfg.percentageDrop) :
    (isValidNotional
        (adjustQuantity (cfg.investment / p) cfg.filters.stepSize
          cfg.filters.minQty)
        (adjustPrice (p * 0.99) cfg.filters.tickSize cfg.filters.minPrice)
        cfg.filters.minNotional →
      env.place
          ⟨"BUY",
            adjustQuantity (cfg.investment / p) cfg.filters.stepSize
              cfg.filters.minQty,
            adjustPrice (p * 0.99) cfg.filters.tickSize cfg.filters.minPrice⟩ =
        .ok oid →
      tick env cfg st =
        (⟨p,
            st.activeOrders ++
              [⟨oid,
                adjustQuantity (cfg.investment / p) cfg.filters.stepSize
                  cfg.filters.minQty,
                adjustPrice (p * 0.99) cfg.filters.tickSize
                  cfg.filters.minPrice⟩]⟩,
          [⟨"BUY",
            adjustQuantity (cfg.investment / p) cfg.filters.stepSize
              cfg.filters.minQty,
            adjustPrice (p * 0.99) cfg.filters.tickSize
              cfg.filters.minPrice⟩], none)) ∧
    (¬ isValidNotional
        (adjustQuantity (cfg.investment / p) cfg.filters.stepSize
          cfg.filters.minQty)
        (adjustPrice (p * 0.99) cfg.filters.tickSize cfg.filters.minPrice)
        cfg.filters.minNotional →
      tick env cfg st = (st, [], none)) := by
  unfold tick
  rw [hp]
  simp only
  rw [hsweep]
  simp only [entryStep]
  rw [if_pos (And.intro hnb hdrop)]
  constructor
  · intro hval hplace
    rw [if_pos hval, hplace]
    simp
  · intro hnval
    rw [if_neg hnval]

/-- Witness for `grid_entry_buy`: base price 100, tick price 99
(a 1 percent drop, past the 0.6 percent threshold), investment 200
quantized to quantity 2 at limit price 98.01, notional 196.02 at least
10; exactly one BUY is placed and the ledger grows from empty to that
one tracked order, with `basePrice` rebased to 99. -/
theorem grid_entry_buy_witness :
    tick envBuyW cfgW stW =
      (⟨99, [⟨7, 2, 9801/100⟩]⟩, [⟨"BUY", 2, 9801/100⟩], none) := by
  have h :=
    (grid_entry_buy envBuyW cfgW stW 99 7 rfl rfl rfl
        (by norm_num [stW, cfgW])).1
      (by norm_num [isValidNotional, adjustQuantity, adjustPrice, cfgW, filtersW])
      rfl
  rw [h]
  norm_num [adjustQuantity, adjustPrice, cfgW, filtersW, stW]

/-! Claim C2. -/

/-- Claim C2 (code bug in the second GridBot variant): for a tracked
buy of price 50 observed FILLED, the code computes a sell price of
`50 * 3.012 = 150.6`, while the claimed formula — also stated by the
code's own comment — is
`quantizePrice(order.price * (1 + 0.03012), tickSize, minPrice)`,
which gives `51.506` at `tickSize = minPrice = 1/10000`; the two
differ. -/
theorem gridbot2_sellprice_bug :
    gridBot2SellPrice 50 = 753/5 ∧
    adjustPrice (50 * (1 + 0.03012)) (1/10000) (1/10000) = 25753/500 ∧
    gridBot2SellPrice 50 ≠
      adjustPrice (50 * (1 + 0.03012)) (1/10000) (1/10000) := by
  refine ⟨by norm_num [gridBot2SellPrice], ?_, ?_⟩
  · norm_num [adjustPrice]
  · norm_num [gridBot2SellPrice, adjustPrice]

/-! Claim C3. -/

/-- Claim C3: whenever the fill sweep of one tick completes without an
exchange error, the resulting ledger is exactly the original ledger
filtered to the orders whose queried status is not FILLED — the
back-to-front in-place removal neither skips nor duplicates entries,
for every ledger and every status assignment. -/
theorem fill_sweep_removes_exactly_filled (check : Nat → Except String String)
    (place : Placement → Except String Nat) (filters : SymbolFilters)
    (orders o' : List TrackedOrder) (sells : List Placement)
    (h : fillSweep check place filters orders = (o', sells, none)) :
    o' = orders.filter (keepOrder check) := by
  have heq := fillSweep_eq_sweepPreAux check place filters orders
  rw [h] at heq
  have h1 : o' = (sweepPreAux check place filters orders.reverse).1 :=
    congrArg (fun t => t.1) heq
  have h3 : (sweepPreAux check place filters orders.reverse).2.2 = none :=
    (congrArg (fun t => t.2.2) heq).symm
  rw [h1, sweepPreAux_none_filter check place filters orders.reverse h3,
    List.reverse_reverse]

/-- Witness for `fill_sweep_removes_exactly_filled`: on a three-order
ledger whose first and third orders are FILLED, the sweep completes
without error, sells both filled orders back-to-front, and leaves
exactly the middle order tracked. -/
theorem fill_sweep_removes_exactly_filled_witness :
    [(⟨2, 6, 11⟩ : TrackedOrder)] = ordersW.filter (keepOrder checkW) :=
  fill_sweep_removes_exactly_filled checkW placeW filtersW ordersW
    [⟨2, 6, 11⟩] [⟨"SELL", 7, 309/25⟩, ⟨"SELL", 5, 103/10⟩]
    (by
      rw [fillSweep_eq_sweepPreAux]
      norm_num [sweepPreAux, ordersW, checkW, placeW, sellPlacement,
        adjustPrice, filtersW]
      simp)

/-! Claim C4. -/

/-- Claim C4: every exchange failure within a tick is caught and
reported while the next tick's state stays sound.  (1) A failed price
fetch leaves the session untouched and reports the error.  (2) A sweep
aborted by an exchange error keeps `basePrice`, keeps the ledger as the
sweep left it, skips the entry decision, and reports the error.  (3) A
failed BUY placement adds nothing to the ledger and keeps `basePrice`,
reporting the error.  (4) An order whose status query fails stays
tracked in the ledger the next tick starts from. -/
theorem tick_error_recovery (env : ExchangeEnv) (cfg : BotConfig)
    (st : SessState) :
    (∀ e, env.getPrice = .error e → tick env cfg st = (st, [], some e)) ∧
    (∀ p orders' sells e, env.getPrice = .ok p →
      fillSweep env.check env.place cfg.filters st.activeOrders =
        (orders', sells, some e) →
      tick env cfg st = (⟨st.basePrice, orders'⟩, sells, some e)) ∧
    (∀ p orders' sells e, env.getPrice = .ok p →
      fillSweep env.check env.place cfg.filters st.activeOrders =
        (orders', sells, none) →
      cfg.noBuys = false →
      (st.basePrice - p) / st.basePrice * 100 ≥ cfg.percentageDrop →
      isValidNotional
        (adjustQuantity (cfg.investment / p) cfg.filters.stepSize
          cfg.filters.minQty)
        (adjustPrice (p * 0.99) cfg.filters.tickSize cfg.filters.minPrice)
        cfg.filters.minNotional →
      env.place
          ⟨"BUY",
            adjustQuantity (cfg.investment / p) cfg.filters.stepSize
              cfg.filters.minQty,
            adjustPrice (p * 0.99) cfg.filters.tickSize cfg.filters.minPrice⟩ =
        .error e →
      tick env cfg st = (⟨st.basePrice, orders'⟩, sells, some e)) ∧
    (∀ a e, a ∈ st.activeOrders → env.check a.orderId = .error e →
      a ∈ (tick env cfg st).1.activeOrders) := by
  refine ⟨?_, ?_, ?_, ?_⟩
  · intro e he
    unfold tick
    rw [he]
  · intro p orders' sells e hp hfs
    unfold tick
    rw [hp]
    simp only
    rw [hfs]
  · intro p orders' sells e hp hfs hnb hdrop hval hplace
    unfold tick
    rw [hp]
    simp only
    rw [hfs]
    simp only [entryStep]
    rw [if_pos (And.intro hnb hdrop), if_pos hval, hplace]
  · intro a e hmem hchk
    unfold tick
    cases hp : env.getPrice with
    | error e2 => simpa using hmem
    | ok p =>
      rcases hfs : fillSweep env.check env.place cfg.filters st.activeOrders
        with ⟨o', s', err⟩
      have ho' : a ∈ o' := by
        have heq := fillSweep_eq_sweepPreAux env.check env.place cfg.filters
          st.activeOrders
        rw [hfs] at heq
        have h1 : o' =
            (sweepPreAux env.check env.place cfg.filters
              st.activeOrders.reverse).1 :=
          congrArg (fun t => t.1) heq
        rw [h1]
        exact sweepPreAux_mem_of_check_error env.check env.place cfg.filters
          a e hchk _ (List.mem_reverse.mpr hmem)
      cases err with
      | some e2 => simpa using ho'
      | none =>
        simpa using entryStep_mem env cfg p st.basePrice o' s' a ho'

/-- Witness for `tick_error_recovery`: under a failing price fetch the
tick reports the error and leaves the session exactly as it was. -/
theorem tick_error_recovery_witness :
    tick envErrW cfgW stW = (stW, [], some "network down") :=
  (tick_error_recovery envErrW cfgW stW).1 "network down" rfl

/-! Claim C5. -/

/-- Counterexample to claim C5 as stated: with raw quantity `1/2`,
`stepSize = 1` and `minQty = 10`, `adjustQuantity` clamps the floored
value `0` up to `10`, which exceeds the raw input — so the quantized
value is not always at most the raw value. -/
theorem adjustQuantity_exceeds_raw_cex :
    adjustQuantity (1/2) 1 10 = 10 ∧ ¬ adjustQuantity (1/2) 1 10 ≤ 1/2 := by
  constructor
  · norm_num [adjustQuantity]
  · norm_num [adjustQuantity]

/-- Claim C5 (amended): for a positive step, the floor-based
quantization of `adjustQuantity` and `adjustPrice` rounds down, never
up, except when the floored value is clamped up to the configured
minimum: the result either does not exceed the raw input or equals the
minimum. -/
theorem quantize_rounds_down_unless_clamped (raw step minv : ℚ)
    (hstep : 0 < step) :
    (adjustQuantity raw step minv ≤ raw ∨ adjustQuantity raw step minv = minv) ∧
    (adjustPrice raw step minv ≤ raw ∨ adjustPrice raw step minv = minv) := by
  have hle := floor_step_le raw step hstep
  constructor
  · unfold adjustQuantity
    by_cases h : ((⌊raw / step⌋ : ℤ) : ℚ) * step < minv
    · right; simp [h]
    · left; simpa [h] using hle
  · unfold adjustPrice
    by_cases h : ((⌊raw / step⌋ : ℤ) : ℚ) * step < minv
    · right; simp [h]
    · left; simpa [h] using hle

/-- Witness for `quantize_rounds_down_unless_clamped` at raw `7/3`,
step `1`, minimum `1`. -/
theorem quantize_rounds_down_unless_clamped_witness :
    (0 : ℚ) < 1 ∧
    ((adjustQuantity (7/3) 1 1 ≤ 7/3 ∨ adjustQuantity (7/3) 1 1 = 1) ∧
     (adjustPrice (7/3) 1 1 ≤ 7/3 ∨ adjustPrice (7/3) 1 1 = 1)) :=
  ⟨by norm_num, quantize_rounds_down_unless_clamped (7/3) 1 1 (by norm_num)⟩

/-! Claim C6. -/

/-- Claim C6: in the Discord variant, every tick whose ledger is
non-empty throws on the undefined `checkOrderStatus` before any status
is checked: the session state (ledger and `basePrice`) is returned
unchanged, no order of any kind — in particular no SELL — is placed,
and whenever the price fetch succeeded the reported error is the
`ReferenceError`. -/
theorem discord_sweep_never_sells (env : ExchangeEnv)
    (filters : SymbolFilters) (st : SessState)
    (hne : st.activeOrders ≠ []) :
    (discordTick env filters st).1 = st ∧
    (discordTick env filters st).2.1 = [] ∧
    (∀ p, env.getPrice = .ok p →
      (discordTick env filters st).2.2 = some discordRefError) := by
  unfold discordTick
  cases hp : env.getPrice with
  | error e =>
    refine ⟨rfl, rfl, ?_⟩
    intro p hq
    exact absurd hq (by simp)
  | ok p =>
    rw [discordSweepGo_ne_nil st.activeOrders [] hne]
    exact ⟨rfl, rfl, fun q hq => rfl⟩

/-- Witness for `discord_sweep_never_sells`: price 102, one tracked
order — the tick leaves the state alone, places nothing and reports the
`ReferenceError`. -/
theorem discord_sweep_never_sells_witness :
    (discordTick envRiseW filtersW stNW).1 = stNW ∧
    (discordTick envRiseW filtersW stNW).2.1 = [] ∧
    (discordTick envRiseW filtersW stNW).2.2 = some discordRefError :=
  ⟨(discord_sweep_never_sells envRiseW filtersW stNW (by simp [stNW])).1,
   (discord_sweep_never_sells envRiseW filtersW stNW (by simp [stNW])).2.1,
   (discord_sweep_never_sells envRiseW filtersW stNW (by simp [stNW])).2.2
     102 rfl⟩

/-! Claim C7. -/

/-- Claim C7: on a tick where the drop condition does not fire and the
rise percentage is at least `percentageRise`, `basePrice` is rebased to
the tick price, no order is placed, and the ledger is unchanged. -/
theorem grid_rise_rebase (env : ExchangeEnv) (cfg : BotConfig) (st : SessState)
    (p : ℚ)
    (hp : env.getPrice = .ok p)
    (hsweep : fillSweep env.check env.place cfg.filters st.activeOrders =
      (st.activeOrders, [], none))
    (hnodrop : ¬ (cfg.noBuys = false ∧
      (st.basePrice - p) / st.basePrice * 100 ≥ cfg.percentageDrop))
    (hrise : (p - st.basePrice) / st.basePrice * 100 ≥ cfg.percentageRise) :
    tick env cfg st = (⟨p, st.activeOrders⟩, [], none) := by
  unfold tick
  rw [hp]
  simp only
  rw [hsweep]
  simp only [entryStep]
  rw [if_neg hnodrop, if_pos hrise]

/-- Witness for `grid_rise_rebase`: base price 100, tick price 102
(a 2 percent rise past the 1.2 percent threshold, no drop):
`basePrice` is rebased to 102, nothing is placed and the ledger stays
empty. -/
theorem grid_rise_rebase_witness :
    tick envRiseW cfgW stW = (⟨102, []⟩, [], none) := by
  have h :=
    grid_rise_rebase envRiseW cfgW stW 102 rfl rfl
      (by norm_num [stW, cfgW]) (by norm_num [stW, cfgW])
  simpa [stW] using h

/-! Claim C8. -/

/-- Claim C8: both quantizers are idempotent for every input, every
positive step and every minimum, including when the first application
clamps up to the minimum. -/
theorem quantize_idempotent (x step minv : ℚ) (hstep : 0 < step) :
    adjustQuantity (adjustQuantity x step minv) step minv =
      adjustQuantity x step minv ∧
    adjustPrice (adjustPrice x step minv) step minv =
      adjustPrice x step minv := by
  have hstep0 : step ≠ 0 := ne_of_gt hstep
  have key : ∀ y : ℚ,
      (if ((⌊((if ((⌊y / step⌋ : ℤ) : ℚ) * step < minv then minv
              else ((⌊y / step⌋ : ℤ) : ℚ) * step) / step)⌋ : ℤ) : ℚ) * step <
           minv then minv
        else ((⌊((if ((⌊y / step⌋ : ℤ) : ℚ) * step < minv then minv
              else ((⌊y / step⌋ : ℤ) : ℚ) * step) / step)⌋ : ℤ) : ℚ) * step) =
      (if ((⌊y / step⌋ : ℤ) : ℚ) * step < minv then minv
        else ((⌊y / step⌋ : ℤ) : ℚ) * step) := by
    intro y
    by_cases h : ((⌊y / step⌋ : ℤ) : ℚ) * step < minv
    · simp only [h, if_true]
      have hm := floor_step_le minv step hstep
      by_cases h2 : ((⌊minv / step⌋ : ℤ) : ℚ) * step < minv
      · simp [h2]
      · simp only [h2, if_false]
        exact le_antisymm hm (le_of_not_lt h2)
    · simp only [h, if_false]
      have hdiv : ((⌊y / step⌋ : ℤ) : ℚ) * step / step = ((⌊y / step⌋ : ℤ) : ℚ) :=
        mul_div_cancel_right₀ _ hstep0
      rw [hdiv, Int.floor_intCast, if_neg h]
  exact ⟨key x, key x⟩

/-- Witness for `quantize_idempotent` at `x = 5/2`, step `1`,
minimum `2`. -/
theorem quantize_idempotent_witness :
    (0 : ℚ) < 1 ∧
    (adjustQuantity (adjustQuantity (5/2) 1 2) 1 2 = adjustQuantity (5/2) 1 2 ∧
     adjustPrice (adjustPrice (5/2) 1 2) 1 2 = adjustPrice (5/2) 1 2) :=
  ⟨by norm_num, quantize_idempotent (5/2) 1 2 (by norm_num)⟩

/-! Claim C9. -/

/-- Counterexample to claim C9 as stated: after setting credentials,
user 1 sends the start command for DOGEUSDT twice and the front end
starts a grid session both times — the second start for the same
(user, symbol) does not fail, and two identical sessions run. -/
theorem session_start_duplicate_cex :
    (runMessages (fun _ => none)
        [(1, ["!setapikey", "k", "s"]),
         (1, ["!setpair", "DOGEUSDT"]),
         (1, ["!setpair", "DOGEUSDT"])]).2 =
      [(1, "DOGEUSDT"), (1, "DOGEUSDT")] := by
  simp [runMessages, handleMessage]

/-- Claim C9 (amended): a start command never fails on an existing
session: re-sending the very same command immediately repeats exactly
the same start actions, silently duplicating the session (the handler
keeps no session registry; only credential-setting messages change its
state). -/
theorem session_start_duplicates (store : Nat → Option Creds) (author : Nat)
    (tokens : List String) (h : ¬ tokens.headD "" = "!setapikey") :
    (runMessages store [(author, tokens), (author, tokens)]).2 =
      (handleMessage store author tokens).2 ++
        (handleMessage store author tokens).2 := by
  have hstore : (handleMessage store author tokens).1 = store := by
    simp only [handleMessage]
    rw [if_neg h]
  simp [runMessages, hstore]

/-- Witness for `session_start_duplicates`: a credentialed user sending
the DOGEUSDT start command twice gets two identical start actions. -/
theorem session_start_duplicates_witness :
    (runMessages (fun _ => some ⟨"k", "s"⟩)
        [(1, ["!setpair", "DOGEUSDT"]), (1, ["!setpair", "DOGEUSDT"])]).2 =
      (handleMessage (fun _ => some ⟨"k", "s"⟩) 1
          ["!setpair", "DOGEUSDT"]).2 ++
        (handleMessage (fun _ => some ⟨"k", "s"⟩) 1
          ["!setpair", "DOGEUSDT"]).2 :=
  session_start_duplicates (fun _ => some ⟨"k", "s"⟩) 1
    ["!setpair", "DOGEUSDT"] (by simp)

/-! Claim C10. -/

/-- Claim C10: in the second GridBot variant the quantity returned by
`adjustQuantity` is always at least `minQty`, so the guard
`if (quantity < minQty)` after quantization can never be true and its
skip-order branch is unreachable. -/
theorem quantity_guard_unreachable (quantity stepSize minQty : ℚ)
    (_hstep : 0 < stepSize) :
    ¬ adjustQuantity quantity stepSize minQty < minQty :=
  not_lt_of_le (adjustQuantity_ge_min quantity stepSize minQty)

/-- Witness for `quantity_guard_unreachable` at quantity `3/7`,
step `1/10`, minimum `5`. -/
theorem quantity_guard_unreachable_witness :
    (0 : ℚ) < 1/10 ∧ ¬ adjustQuantity (3/7) (1/10) 5 < 5 :=
  ⟨by norm_num, quantity_guard_unreachable (3/7) (1/10) 5 (by norm_num)⟩

end GridKyc
